import Mathlib

/-!
Verification of the core of the acme-lite ACME client library.

The development shallowly embeds the Rust sources:

* `src/acc/acme_key.rs` — the `AcmeKey` account-key object (signing key plus
  optional key ID, PEM round-trip, key-ID accessor that panics when unset);
* `src/order/auth.rs` — authorizations and challenges: the three proof
  derivations (`http_proof`, `dns_proof`, `tls_alpn_proof` via
  `key_authorization`), `need_validate` / `need_challenge`, and the
  `validate` polling loop (`wait_for_auth_status`).

External crypto primitives (SHA-256 from openssl, the P-256 public-point
computation from the p256 crate, PKCS#8 PEM encode/decode from the pkcs8
crate) are delegated collaborators; they are taken as parameters of the
embedding, constrained only by their documented interfaces.  Repository
modules that are referenced but whose sources are not part of this
development (`api.rs` status predicates, `jwt.rs` JWK serialization,
`util.rs` base64url) are modelled from the specification; each such
definition is marked `Modelled from the spec:`.
-/

namespace AcmeLite

/-- UTF-8 bytes of a string, as naturals.  All strings handled by the proof
functions (tokens, base64url output, canonical JWK JSON) are ASCII, for which
the code-point list and the UTF-8 byte list coincide. -/
def strBytes (s : String) : List Nat :=
  s.data.map Char.toNat

/-- Modelled from the spec: the base64url alphabet (RFC 4648 §5),
`A-Z a-z 0-9 - _`, mapping a 6-bit value to its character.  The `base64url`
helper lives in `util.rs`, which is not among the provided sources; the spec
delegates to "base64url unpadded encode". -/
def base64urlChar (n : Nat) : Char :=
  if n < 26 then Char.ofNat (65 + n)
  else if n < 52 then Char.ofNat (97 + (n - 26))
  else if n < 62 then Char.ofNat (48 + (n - 52))
  else if n = 62 then Char.ofNat 45
  else Char.ofNat 95

/-- Modelled from the spec: unpadded base64url encoding of a byte list,
three bytes to four characters, final group of one or two bytes producing
two or three characters and no padding. -/
def base64urlEncode : List Nat → List Char
  | [] => []
  | [b1] =>
    [base64urlChar (b1 / 4), base64urlChar (b1 % 4 * 16)]
  | [b1, b2] =>
    [base64urlChar (b1 / 4), base64urlChar (b1 % 4 * 16 + b2 / 16),
     base64urlChar (b2 % 16 * 4)]
  | b1 :: b2 :: b3 :: rest =>
    base64urlChar (b1 / 4) :: base64urlChar (b1 % 4 * 16 + b2 / 16) ::
    base64urlChar (b2 % 16 * 4 + b3 / 64) :: base64urlChar (b3 % 64) ::
    base64urlEncode rest

/-- Modelled from the spec: `base64url` from `util.rs`, unpadded encode to a
string. -/
def base64url (bs : List Nat) : String :=
  String.mk (base64urlEncode bs)

/-- The delegated crypto primitives consumed by the core (spec §6): SHA-256
and the projection of a P-256 private scalar to the base64url-encoded
unpadded big-endian affine coordinates `(x, y)` of its public point.  The
signing key itself is abstracted as the `Nat` scalar. -/
structure Crypto where
  sha256 : List Nat → List Nat
  ecPoint : Nat → String × String

/-- `AcmeKey` from `acme_key.rs`: an ECDSA P-256 signing key (abstracted as
its scalar) plus a key ID that is set once an ACME account is created. -/
structure AcmeKey where
  signing_key : Nat
  key_id : Option String
deriving DecidableEq, Repr

/-- `AcmeKey::from_key`: constructs a new ACME key from a signing key; no
key ID is set. -/
def from_key (sk : Nat) : AcmeKey :=
  { signing_key := sk, key_id := none }

/-- `AcmeKey::new`: fresh random key (the RNG is external; the scalar is a
parameter); no key ID is set. -/
def AcmeKey.mkNew (sk : Nat) : AcmeKey :=
  from_key sk

/-- `AcmeKey::from_pem`: parse a PKCS#8 PEM blob with the delegated decoder
and wrap the parse error with the context `Failed to read PEM`; no key ID is
set. -/
def from_pem (decode : String → Except String Nat) (pem : String) :
    Except String AcmeKey :=
  match decode pem with
  | Except.error e => Except.error ("Failed to read PEM: " ++ e)
  | Except.ok sk => Except.ok (from_key sk)

/-- `AcmeKey::to_pem`: emit PKCS#8 PEM of the signing key with the delegated
encoder (LF line endings are the encoder's concern).  Only the signing key is
serialized; the key ID does not appear in the PEM. -/
def to_pem (encode : Nat → String) (k : AcmeKey) : String :=
  encode k.signing_key

/-- `AcmeKey::set_key_id`: sets the key ID, overwriting any previous value. -/
def set_key_id (k : AcmeKey) (kid : String) : AcmeKey :=
  { k with key_id := some kid }

/-- `AcmeKey::key_id`: `self.key_id.as_ref().unwrap()` — returns the stored
key ID, panicking when it is unset.  The embedding returns `none` exactly
where the Rust code panics. -/
def key_id_value (k : AcmeKey) : Option String :=
  k.key_id

/-- Modelled from the spec: the RFC 7638 canonical JSON serialization of the
public JWK produced by `JwkThumb` in `jwt.rs` (not among the provided
sources): fields in lexicographic order `crv`, `kty`, `x`, `y`, no
whitespace. -/
def jwkThumbJson (x y : String) : String :=
  "\x7b\"crv\":\"P-256\",\"kty\":\"EC\",\"x\":\"" ++ x ++ "\",\"y\":\"" ++ y
    ++ "\"\x7d"

/-- The canonical JWK JSON of an account key's public projection. -/
def jwkJsonOf (C : Crypto) (k : AcmeKey) : String :=
  jwkThumbJson (C.ecPoint k.signing_key).1 (C.ecPoint k.signing_key).2

/-- The RFC 7638 JWK thumbprint of an account key: SHA-256 of the canonical
JWK JSON (spec §4.1 `thumbprint()`), as raw bytes. -/
def thumbprint (C : Crypto) (k : AcmeKey) : List Nat :=
  C.sha256 (strBytes (jwkJsonOf C k))

/-- `key_authorization` from `auth.rs`: serialize the key's JWK thumbprint
form, hash it, base64url it, join with the token by a dot; when
`extra_sha256` is set, hash and base64url the joined string once more.
(The Rust function returns `Result` because the JWK projection of an invalid
key can fail; the embedding covers valid keys, for which it succeeds.) -/
def key_authorization (C : Crypto) (token : String) (key : AcmeKey)
    (extra_sha256 : Bool) : String :=
  let jwk_json := jwkJsonOf C key
  let digest := base64url (C.sha256 (strBytes jwk_json))
  let key_auth := token ++ "." ++ digest
  if extra_sha256 then base64url (C.sha256 (strBytes key_auth)) else key_auth

/-- Modelled from the spec: an ACME challenge-level error object (`type`,
optional `detail`), the payload of `ApiChallenge::error` in `api.rs`.  The
field `etype` embeds the Rust field `_type` (serialized name `type`). -/
structure ApiProblem where
  etype : String
  detail : Option String
deriving DecidableEq, Repr

/-- Modelled from the spec: `ApiChallenge` from `api.rs` — a challenge
record with `type ∈ {http-01, dns-01, tls-alpn-01}`, a status, a `url`, a
`token`, and an optional `error` object. -/
structure ApiChallenge where
  ctype : String
  status : String
  url : String
  token : String
  error : Option ApiProblem
deriving DecidableEq, Repr

/-- Modelled from the spec: `ApiChallenge::is_status_pending` — the status
string equals `pending`. -/
def ApiChallenge.is_status_pending (c : ApiChallenge) : Bool :=
  c.status == "pending"

/-- Modelled from the spec: `ApiAuth` from `api.rs` — an authorization
record with an identifier value, a status, and a list of challenges. -/
structure ApiAuth where
  identifier : String
  status : String
  challenges : List ApiChallenge
deriving DecidableEq, Repr

/-- Modelled from the spec: `ApiAuth::is_status_valid`. -/
def ApiAuth.is_status_valid (a : ApiAuth) : Bool :=
  a.status == "valid"

/-- Modelled from the spec: `ApiAuth::is_status_pending`. -/
def ApiAuth.is_status_pending (a : ApiAuth) : Bool :=
  a.status == "pending"

/-- `Challenge::<Http>::http_proof`: the text content placed in the
well-known file — `key_authorization` without the extra hash. -/
def http_proof (C : Crypto) (key : AcmeKey) (chall : ApiChallenge) : String :=
  key_authorization C chall.token key false

/-- `Challenge::<Dns>::dns_proof`: the `TXT` record content —
`key_authorization` with the extra hash. -/
def dns_proof (C : Crypto) (key : AcmeKey) (chall : ApiChallenge) : String :=
  key_authorization C chall.token key true

/-- `Challenge::<TlsAlpn>::tls_alpn_proof`: the raw SHA-256 digest of the
plain key authorization, returned as bytes (`[u8; 32]` in the source). -/
def tls_alpn_proof (C : Crypto) (key : AcmeKey) (chall : ApiChallenge) :
    List Nat :=
  C.sha256 (strBytes (key_authorization C chall.token key false))

/-- `Challenge::need_validate`: the challenge's own status is pending. -/
def need_validate (chall : ApiChallenge) : Bool :=
  chall.is_status_pending

/-- `Auth::need_challenge`: the authorization's status is not valid. -/
def need_challenge (a : ApiAuth) : Bool :=
  !a.is_status_valid

/-- An observable transport/timing action performed by `Challenge::validate`:
a signed POST of a textual payload to a URL, or a sleep of the caller's poll
interval (durations are abstracted as `Nat`). -/
inductive Action where
  | post (url : String) (payload : String)
  | sleep (d : Nat)
deriving DecidableEq, Repr

/-- `wait_for_auth_status` from `auth.rs`, value part: the loop POST-as-GETs
the authorization URL and breaks on the first response whose status is not
pending.  The server's successive responses are the list `polls`; `none`
models the loop still running when the list is exhausted (the Rust loop has
no bound).  Transport and JSON-decode errors, which the `?` operator
propagates, are outside this embedding. -/
def wait_for_auth_status : List ApiAuth → Option ApiAuth
  | [] => none
  | a :: rest =>
    if a.is_status_pending then wait_for_auth_status rest else some a

/-- `wait_for_auth_status`, trace part: each iteration POSTs the empty-string
payload (`ApiEmptyString`, the POST-as-GET body) to the authorization URL;
when the response is still pending it sleeps the poll interval and loops. -/
def waitTrace (authUrl : String) (d : Nat) : List ApiAuth → List Action
  | [] => []
  | a :: rest =>
    Action.post authUrl "" ::
      (if a.is_status_pending then Action.sleep d :: waitTrace authUrl d rest
       else [])

/-- The `error` selected by `Challenge::validate`: iterate the
authorization's challenges, keep those carrying an `error` object, take the
first (`challenges.iter().filter_map(|c| c.error.as_ref()).next()`). -/
def firstChallengeError (auth : ApiAuth) : Option ApiProblem :=
  (auth.challenges.filterMap (fun c => c.error)).head?

/-- The `reason` string built by `Challenge::validate` when the
authorization left pending in a non-valid state: the selected error's
`detail`, falling back to its `type` (`unwrap_or_else`), falling back to a
fixed message when no challenge carries an error.  (The Rust `bail!` then
interpolates `reason` with `{:?}`; the Debug quoting is elided here.) -/
def validationReason (auth : ApiAuth) : String :=
  match firstChallengeError auth with
  | some error => "Failed: " ++ (error.detail.getD error.etype)
  | none => "Validation failed and no error found"

/-- `Challenge::validate`, value part: trigger the challenge, wait for the
authorization to leave pending, succeed when it is valid and otherwise fail
with `Validation failed: <reason>`.  `none` models the unbounded polling
loop not having terminated within the given responses. -/
def validateResult (polls : List ApiAuth) : Option (Except String Unit) :=
  match wait_for_auth_status polls with
  | none => none
  | some auth =>
    if auth.is_status_valid then some (Except.ok ())
    else some (Except.error ("Validation failed: " ++ validationReason auth))

/-- `Challenge::validate`, trace part: first a POST of the empty-object
payload (`ApiEmptyObject`, serialized `{}`) to the challenge's `url`, then
the polling loop against the containing authorization URL. -/
def validateTrace (chall : ApiChallenge) (authUrl : String) (d : Nat)
    (polls : List ApiAuth) : List Action :=
  Action.post chall.url "\x7b\x7d" :: waitTrace authUrl d polls

/-- The number of leading still-pending responses: how many full (POST,
sleep) iterations the polling loop runs before the breaking poll. -/
def pendingCount (polls : List ApiAuth) : Nat :=
  (polls.takeWhile (fun a => a.is_status_pending)).length

/-- The polling trace the spec describes: `n` polls that each come back
pending (POST-as-GET, then a sleep of the poll interval), then one final
poll. -/
def pollTrace (authUrl : String) (d : Nat) : Nat → List Action
  | 0 => [Action.post authUrl ""]
  | n + 1 => Action.post authUrl "" :: Action.sleep d :: pollTrace authUrl d n

/-- The methods of `AcmeKey` in `acme_key.rs`, viewed as operations on the
key's state.  Only `set_key_id` takes `&mut self`; `to_pem`, `signing_key`
and `key_id` take `&self` and cannot mutate. -/
inductive KeyOp where
  | toPem
  | readSigningKey
  | readKeyId
  | setKeyId (kid : String)
deriving DecidableEq, Repr

/-- Apply one operation to a key: `set_key_id` stores the new key ID; the
`&self` accessors leave the state unchanged by their signatures. -/
def applyKeyOp (k : AcmeKey) : KeyOp → AcmeKey
  | KeyOp.setKeyId kid => set_key_id k kid
  | _ => k

/-- Apply a sequence of mutating operations to a key. -/
def runKeyOps (k : AcmeKey) (ops : List KeyOp) : AcmeKey :=
  ops.foldl applyKeyOp k

/-- Modelled from the spec: the registration path (`register_account` /
`find_account` in the account module, not among the provided sources) binds
the account URL from the `Location` header by calling `set_kid` exactly
once on success (spec §4.5). -/
def register_account (k : AcmeKey) (location : String) : AcmeKey :=
  set_key_id k location

/-- Whether a key operation is the key-ID mutator. -/
def isSetKeyId : KeyOp → Bool
  | KeyOp.setKeyId _ => true
  | _ => false

/-- A concrete stand-in for the delegated crypto primitives, used to
evaluate the embedding at concrete inputs: a constant 32-byte digest and
fixed public coordinates. -/
def demoCrypto : Crypto :=
  { sha256 := fun _ => List.replicate 32 7,
    ecPoint := fun _ => ("xcoordxcoord", "ycoordycoord") }

/-- A concrete account key. -/
def demoKey : AcmeKey :=
  from_key 5

/-- A concrete challenge carrying the token from the repository's mock
server. -/
def demoChall : ApiChallenge :=
  { ctype := "http-01", status := "pending",
    url := "http://example.org/acme/challenge/1",
    token := "MUi-gqeOJdRkSb_YR2eaMxQBqf6al8dgt_dOttSWb0w", error := none }

/-- C1: `http_proof` returns the HTTP-01 key authorization
`token ++ "." ++ base64url(thumbprint)`, where the thumbprint is the SHA-256
of the canonical RFC 7638 JSON of the key's public JWK and base64url is
unpadded; in particular for the mock-server token the proof is that token,
a dot, and the encoded thumbprint. -/
theorem http_proof_key_authorization (C : Crypto) (key : AcmeKey)
    (chall : ApiChallenge) (st u ty : String) (err : Option ApiProblem) :
    http_proof C key chall = chall.token ++ "." ++ base64url (thumbprint C key)
    ∧ http_proof C key
        { ctype := ty, status := st, url := u,
          token := "MUi-gqeOJdRkSb_YR2eaMxQBqf6al8dgt_dOttSWb0w", error := err }
      = "MUi-gqeOJdRkSb_YR2eaMxQBqf6al8dgt_dOttSWb0w" ++ "."
          ++ base64url (thumbprint C key) :=
  ⟨rfl, rfl⟩

/-- C2: `dns_proof` returns the unpadded base64url encoding of the SHA-256
digest of the HTTP-01 key authorization string
`token ++ "." ++ base64url(thumbprint)`. -/
theorem dns_proof_hashed_key_authorization (C : Crypto) (key : AcmeKey)
    (chall : ApiChallenge) :
    dns_proof C key chall
      = base64url (C.sha256 (strBytes
          (chall.token ++ "." ++ base64url (thumbprint C key)))) :=
  rfl

/-- C3: `tls_alpn_proof` returns the raw SHA-256 digest of the key
authorization `token ++ "." ++ base64url(thumbprint)` — 32 bytes, not
base64url-encoded — given that the delegated SHA-256 returns 32 bytes. -/
theorem tls_alpn_proof_raw_digest (C : Crypto) (key : AcmeKey)
    (chall : ApiChallenge) (hsha : ∀ bs, (C.sha256 bs).length = 32) :
    tls_alpn_proof C key chall
        = C.sha256 (strBytes (chall.token ++ "." ++ base64url (thumbprint C key)))
    ∧ (tls_alpn_proof C key chall).length = 32 :=
  ⟨rfl, hsha _⟩

/-- Witness for C3: the raw-digest equation and the 32-byte length evaluated
at the concrete crypto stand-in, key, and challenge. -/
theorem tls_alpn_proof_raw_digest_witness :
    (∀ bs, (demoCrypto.sha256 bs).length = 32)
    ∧ (tls_alpn_proof demoCrypto demoKey demoChall).length = 32 :=
  ⟨fun bs => by simp [demoCrypto],
   (tls_alpn_proof_raw_digest demoCrypto demoKey demoChall
      (fun bs => by simp [demoCrypto])).2⟩

/-- C10: the three proof functions are algebraically related:
`tls_alpn_proof` is the raw SHA-256 of the `http_proof` string, and
`dns_proof` is the unpadded base64url encoding of `tls_alpn_proof`; hence
`dns_proof = base64url (SHA-256 (http_proof))`. -/
theorem proof_functions_related (C : Crypto) (key : AcmeKey)
    (chall : ApiChallenge) :
    tls_alpn_proof C key chall = C.sha256 (strBytes (http_proof C key chall))
    ∧ dns_proof C key chall = base64url (tls_alpn_proof C key chall)
    ∧ dns_proof C key chall
        = base64url (C.sha256 (strBytes (http_proof C key chall))) :=
  ⟨rfl, rfl, rfl⟩

/-- String append is associative (used to normalize error messages). -/
theorem strAppend_assoc (a b c : String) : a ++ (b ++ c) = (a ++ b) ++ c := by
  cases a with
  | mk la =>
    cases b with
    | mk lb =>
      cases c with
      | mk lc =>
        show String.mk (la ++ (lb ++ lc)) = String.mk ((la ++ lb) ++ lc)
        rw [List.append_assoc]

/-- Characterization of the polling loop: when `wait_for_auth_status`
returns an authorization, the loop ran exactly `pendingCount polls` full
(POST, sleep) iterations, the returned authorization is the response at
that index, every earlier response was pending, and the returned one is
not. -/
theorem wait_status_characterization (authUrl : String) (d : Nat) :
    ∀ (polls : List ApiAuth) (a : ApiAuth),
      wait_for_auth_status polls = some a →
      waitTrace authUrl d polls = pollTrace authUrl d (pendingCount polls)
      ∧ polls.get? (pendingCount polls) = some a
      ∧ (∀ i, i < pendingCount polls →
          ∃ b, polls.get? i = some b ∧ b.is_status_pending = true)
      ∧ a.is_status_pending = false := by
  intro polls
  induction polls with
  | nil =>
    intro a h
    simp [wait_for_auth_status] at h
  | cons p rest ih =>
    intro a h
    by_cases hp : p.is_status_pending = true
    · have h' : wait_for_auth_status rest = some a := by
        simpa [wait_for_auth_status, hp] using h
      obtain ⟨ht, hg, hpend, hnp⟩ := ih a h'
      have hcount : pendingCount (p :: rest) = pendingCount rest + 1 := by
        simp [pendingCount, List.takeWhile, hp]
      refine ⟨?_, ?_, ?_, hnp⟩
      · simp [waitTrace, hp, hcount, pollTrace, ht]
      · simpa [hcount] using hg
      · intro i hi
        rw [hcount] at hi
        match i with
        | 0 => exact ⟨p, rfl, hp⟩
        | Nat.succ j =>
          have hj : j < pendingCount rest := Nat.lt_of_succ_lt_succ hi
          obtain ⟨b, hb1, hb2⟩ := hpend j hj
          exact ⟨b, by simpa using hb1, hb2⟩
    · have hp' : p.is_status_pending = false := by
        simpa using hp
      have ha : a = p := by
        have := h
        simp [wait_for_auth_status, hp'] at this
        exact this.symm
      have hcount : pendingCount (p :: rest) = 0 := by
        simp [pendingCount, List.takeWhile, hp']
      subst ha
      refine ⟨?_, ?_, ?_, hp'⟩
      · simp [waitTrace, hp', hcount, pollTrace]
      · simp [hcount]
      · intro i hi
        rw [hcount] at hi
        exact absurd hi (Nat.not_lt_zero i)

/-- C4: `Challenge::validate` first POSTs the empty-object payload to the
challenge's `url`, then POST-as-GETs the authorization URL with a sleep of
the poll interval between polls, until the status leaves pending; on
termination the response it stopped at is the first non-pending one, and the
call succeeds exactly when that status is valid. -/
theorem validate_protocol (chall : ApiChallenge) (authUrl : String) (d : Nat)
    (polls : List ApiAuth) (a : ApiAuth)
    (h : wait_for_auth_status polls = some a) :
    validateTrace chall authUrl d polls
      = Action.post chall.url "\x7b\x7d"
          :: pollTrace authUrl d (pendingCount polls)
    ∧ polls.get? (pendingCount polls) = some a
    ∧ (∀ i, i < pendingCount polls →
        ∃ b, polls.get? i = some b ∧ b.is_status_pending = true)
    ∧ a.is_status_pending = false
    ∧ (validateResult polls = some (Except.ok ()) ↔ a.is_status_valid = true) := by
  obtain ⟨ht, hg, hpend, hnp⟩ := wait_status_characterization authUrl d polls a h
  refine ⟨?_, hg, hpend, hnp, ?_⟩
  · simp [validateTrace, ht]
  · by_cases hv : a.is_status_valid = true
    · simp [validateResult, h, hv]
    · simp [validateResult, h, hv]

/-- A pending authorization response from the mock server's data. -/
def demoPendingAuth : ApiAuth :=
  { identifier := "acmetest.example.com", status := "pending",
    challenges := [demoChall] }

/-- A valid authorization response. -/
def demoValidAuth : ApiAuth :=
  { identifier := "acmetest.example.com", status := "valid",
    challenges := [demoChall] }

/-- Witness for C4: a run that polls one pending response and then a valid
one triggers the challenge, polls twice with one sleep in between, and
succeeds. -/
theorem validate_protocol_witness :
    wait_for_auth_status [demoPendingAuth, demoValidAuth] = some demoValidAuth
    ∧ (validateResult [demoPendingAuth, demoValidAuth] = some (Except.ok ())
        ↔ demoValidAuth.is_status_valid = true) :=
  ⟨by decide,
   (validate_protocol demoChall "http://example.org/acme/authz/1" 1
      [demoPendingAuth, demoValidAuth] demoValidAuth (by decide)).2.2.2.2⟩

/-- C5: when the first non-pending authorization status is not valid,
`validate` fails with an error carrying the first challenge error's
`detail`, falling back to that error's `type` when the detail is absent,
and to a generic message when no challenge carries an error object. -/
theorem validate_failure_reason (polls : List ApiAuth) (a : ApiAuth)
    (h : wait_for_auth_status polls = some a)
    (hv : a.is_status_valid = false) :
    (∀ e det, firstChallengeError a = some e → e.detail = some det →
      validateResult polls
        = some (Except.error ("Validation failed: Failed: " ++ det)))
    ∧ (∀ e, firstChallengeError a = some e → e.detail = none →
      validateResult polls
        = some (Except.error ("Validation failed: Failed: " ++ e.etype)))
    ∧ (firstChallengeError a = none →
      validateResult polls
        = some (Except.error
            "Validation failed: Validation failed and no error found")) := by
  have hres : validateResult polls
      = some (Except.error ("Validation failed: " ++ validationReason a)) := by
    simp [validateResult, h, hv]
  refine ⟨?_, ?_, ?_⟩
  · intro e det he hdet
    rw [hres]
    have hr : validationReason a = "Failed: " ++ det := by
      simp [validationReason, he, hdet]
    rw [hr, strAppend_assoc]
    rfl
  · intro e he hdet
    rw [hres]
    have hr : validationReason a = "Failed: " ++ e.etype := by
      simp [validationReason, he, hdet]
    rw [hr, strAppend_assoc]
    rfl
  · intro hnone
    rw [hres]
    simp [validationReason, hnone]

/-- A challenge that failed validation, carrying an error object with a
detail. -/
def demoFailedChall : ApiChallenge :=
  { ctype := "http-01", status := "invalid",
    url := "http://example.org/acme/challenge/1",
    token := "MUi-gqeOJdRkSb_YR2eaMxQBqf6al8dgt_dOttSWb0w",
    error := some { etype := "urn:ietf:params:acme:error:unauthorized",
                    detail := some "Invalid response" } }

/-- An invalid authorization response whose challenge carries an error. -/
def demoInvalidAuth : ApiAuth :=
  { identifier := "acmetest.example.com", status := "invalid",
    challenges := [demoFailedChall] }

/-- Witness for C5: for a run ending in an invalid authorization whose
challenge error has a detail, the failure message carries that detail. -/
theorem validate_failure_reason_witness :
    wait_for_auth_status [demoInvalidAuth] = some demoInvalidAuth
    ∧ demoInvalidAuth.is_status_valid = false
    ∧ validateResult [demoInvalidAuth]
        = some (Except.error "Validation failed: Failed: Invalid response") :=
  ⟨by decide, by decide,
   (validate_failure_reason [demoInvalidAuth] demoInvalidAuth (by decide)
        (by decide)).1
     { etype := "urn:ietf:params:acme:error:unauthorized",
       detail := some "Invalid response" }
     "Invalid response" (by decide) rfl⟩

/-- C6 (counterexample): `need_validate` inspects only the challenge's own
status, so a still-pending challenge inside an authorization whose status is
`valid` has `need_validate = true`, contradicting the claim that every
challenge of a valid authorization needs no validation. -/
theorem need_validate_counterexample :
    demoValidAuth.is_status_valid = true
    ∧ demoChall ∈ demoValidAuth.challenges
    ∧ need_validate demoChall = true := by
  refine ⟨rfl, ?_, rfl⟩
  simp [demoValidAuth]

/-- C6 (amended): `need_validate` returns false exactly when the
challenge's own status is not `pending` (it does not consult the containing
authorization), and `need_challenge` returns false exactly when the
authorization's status is `valid`. -/
theorem need_validate_own_status (c : ApiChallenge) (a : ApiAuth) :
    (need_validate c = true ↔ c.status = "pending")
    ∧ (need_challenge a = false ↔ a.status = "valid") := by
  constructor
  · simp [need_validate, ApiChallenge.is_status_pending]
  · simp [need_challenge, ApiAuth.is_status_valid]

/-- Running any sequence of key operations never changes the signing key:
only `set_key_id` mutates at all, and it touches only the key ID. -/
theorem runKeyOps_signing_key (ops : List KeyOp) :
    ∀ k : AcmeKey, (runKeyOps k ops).signing_key = k.signing_key := by
  induction ops with
  | nil => intro k; rfl
  | cons op rest ih =>
    intro k
    have hstep : runKeyOps k (op :: rest) = runKeyOps (applyKeyOp k op) rest :=
      rfl
    rw [hstep, ih (applyKeyOp k op)]
    cases op <;> rfl

/-- Running a sequence of key operations containing no `set_key_id` leaves
the key ID unchanged. -/
theorem runKeyOps_key_id (ops : List KeyOp) :
    ∀ k : AcmeKey, (∀ op ∈ ops, isSetKeyId op = false) →
      (runKeyOps k ops).key_id = k.key_id := by
  induction ops with
  | nil => intro k _; rfl
  | cons op rest ih =>
    intro k hops
    have hstep : runKeyOps k (op :: rest) = runKeyOps (applyKeyOp k op) rest :=
      rfl
    have hop : isSetKeyId op = false := hops op (by simp)
    have hfix : applyKeyOp k op = k := by
      cases op with
      | setKeyId kid => simp [isSetKeyId] at hop
      | toPem => rfl
      | readSigningKey => rfl
      | readKeyId => rfl
    rw [hstep, ih (applyKeyOp k op) (fun o ho => hops o (by simp [ho])), hfix]

/-- C7: the signing key is immutable — no operation on an `AcmeKey`
replaces it; `new` and `from_pem` both produce a key with no key ID; the
registration path sets the key ID exactly once, and any further operations
(none of which is another `set_key_id`) leave it at that value. -/
theorem acme_key_lifecycle (sk : Nat) (decode : String → Except String Nat)
    (pem : String) (k k0 : AcmeKey) (ops : List KeyOp) (url : String)
    (hk : from_pem decode pem = Except.ok k) :
    (AcmeKey.mkNew sk).key_id = none
    ∧ k.key_id = none
    ∧ (∀ (k1 : AcmeKey) (ops1 : List KeyOp),
        (runKeyOps k1 ops1).signing_key = k1.signing_key)
    ∧ (register_account k0 url).key_id = some url
    ∧ ((∀ op ∈ ops, isSetKeyId op = false) →
        (runKeyOps (register_account k0 url) ops).key_id = some url) := by
  refine ⟨rfl, ?_, fun k1 ops1 => runKeyOps_signing_key ops1 k1, rfl, ?_⟩
  · revert hk
    unfold from_pem
    cases hd : decode pem with
    | error e => intro hk; exact absurd hk (by simp)
    | ok sk1 =>
      intro hk
      have : from_key sk1 = k := by
        simpa using hk
      rw [← this]
      rfl
  · intro hops
    rw [runKeyOps_key_id ops (register_account k0 url) hops]
    rfl

/-- A trivial stand-in for the delegated PEM decoder, used to evaluate the
`from_pem` path at a concrete input. -/
def demoDecode : String → Except String Nat :=
  fun _ => Except.ok 3

/-- Witness for C7: a key parsed from PEM has no key ID, and after
registration binds the account URL through further non-mutating
operations. -/
theorem acme_key_lifecycle_witness :
    from_pem demoDecode "pem" = Except.ok (from_key 3)
    ∧ (from_key 3).key_id = none
    ∧ (runKeyOps
        (register_account (from_key 3) "https://example.org/acme/acct/7728515")
        [KeyOp.toPem, KeyOp.readKeyId]).key_id
      = some "https://example.org/acme/acct/7728515" :=
  ⟨rfl,
   (acme_key_lifecycle 3 demoDecode "pem" (from_key 3) (from_key 3)
      [KeyOp.toPem, KeyOp.readKeyId] "https://example.org/acme/acct/7728515"
      rfl).2.1,
   (acme_key_lifecycle 3 demoDecode "pem" (from_key 3) (from_key 3)
      [KeyOp.toPem, KeyOp.readKeyId] "https://example.org/acme/acct/7728515"
      rfl).2.2.2.2 (by decide)⟩

/-- C8: `key_id()` before `set_key_id` has succeeded hits the `unwrap` panic
(modelled as `none`): both constructors produce a key on which the accessor
panics; once `set_key_id url` has been called the accessor returns exactly
that url. -/
theorem key_id_panic_precondition (sk : Nat) (k : AcmeKey) (url : String) :
    key_id_value (from_key sk) = none
    ∧ key_id_value (AcmeKey.mkNew sk) = none
    ∧ key_id_value (set_key_id k url) = some url :=
  ⟨rfl, rfl, rfl⟩

/-- A stand-in for the delegated PKCS#8 PEM encoder: the scalar `n` is
encoded as `n` repeated characters.  Together with `demoDecodePem` it
satisfies the codec round-trip interface. -/
def demoEncode : Nat → String :=
  fun n => String.mk (List.replicate n (Char.ofNat 97))

/-- The matching stand-in decoder: recover the scalar as the length. -/
def demoDecodePem : String → Except String Nat :=
  fun s => Except.ok s.length

/-- The stand-in codec satisfies the documented PEM round-trip interface. -/
theorem demoPem_roundtrip (sk : Nat) :
    demoDecodePem (demoEncode sk) = Except.ok sk := by
  simp [demoEncode, demoDecodePem, String.length]

/-- C9 (counterexample): with a codec satisfying the round-trip interface,
re-parsing the PEM of a key whose key ID is set does not return a key equal
to the original — `to_pem` serializes only the signing key and `from_pem`
sets no key ID. -/
theorem pem_roundtrip_counterexample :
    demoDecodePem (demoEncode 5) = Except.ok 5
    ∧ from_pem demoDecodePem
        (to_pem demoEncode
          (set_key_id (from_key 5) "https://example.org/acme/acct/7728515"))
      ≠ Except.ok
          (set_key_id (from_key 5) "https://example.org/acme/acct/7728515") := by
  refine ⟨demoPem_roundtrip 5, ?_⟩
  intro hEq
  have h1 : from_pem demoDecodePem
      (to_pem demoEncode
        (set_key_id (from_key 5) "https://example.org/acme/acct/7728515"))
      = Except.ok (from_key 5) := rfl
  rw [h1] at hEq
  simp [from_key, set_key_id] at hEq

/-- C9 (amended): with a conforming PEM codec, `from_pem (to_pem k)`
returns a key with the same signing key as `k` and no key ID; full equality
`from_pem (to_pem k) = k` holds whenever `k`'s key ID is unset, as it is for
every key produced by `new` or `from_pem`. -/
theorem pem_roundtrip_preserves_signing_key (encode : Nat → String)
    (decode : String → Except String Nat)
    (hrt : ∀ sk, decode (encode sk) = Except.ok sk) (k : AcmeKey) :
    from_pem decode (to_pem encode k) = Except.ok (from_key k.signing_key)
    ∧ (k.key_id = none → from_pem decode (to_pem encode k) = Except.ok k) := by
  have h1 : from_pem decode (to_pem encode k)
      = Except.ok (from_key k.signing_key) := by
    simp [from_pem, to_pem, hrt k.signing_key]
  refine ⟨h1, ?_⟩
  intro hnone
  rw [h1]
  cases k with
  | mk sk kid =>
    simp only at hnone
    subst hnone
    rfl

/-- Witness for C9 (amended): round-tripping a fresh key through the
stand-in codec returns it unchanged. -/
theorem pem_roundtrip_witness :
    from_pem demoDecodePem (to_pem demoEncode (from_key 5))
      = Except.ok (from_key 5) :=
  (pem_roundtrip_preserves_signing_key demoEncode demoDecodePem
      demoPem_roundtrip (from_key 5)).2 rfl

end AcmeLite
